import Mathlib

/-!
Verification of the deduplicating WARC rewriter of `pipeline.py`
(class `Deduplicate`, method `process`, lines 139-210).

The embedding below models the Python code over `String` payloads and
association-list headers:

* A WARC record is a header (field name → string value) plus a raw payload.
  The Python `warc` library stores headers in a case-insensitive dictionary;
  the model uses exact keys with the canonical spellings that both the input
  producer (wget's WARC writer) and `pipeline.py` use, on which the two
  agree.  The code under scrutiny is Python 2, where `str` is a byte string,
  so `String.length` plays the role of `len` (byte length).
* Fallible Python operations (dictionary `[...]` lookup and `del` raising
  `KeyError`, `None.split` raising `AttributeError`, `list[1]` raising
  `IndexError`) are modelled in `Except String`.
* `str.splitlines` is modelled for the separators `\r\n`, `\r`, `\n`
  (the ones that occur in HTTP header blocks); `str.strip` strips the ASCII
  whitespace characters.
-/

namespace FlickrDedup

/-- Python `str.strip` whitespace set (ASCII part). -/
def isPySpace (c : Char) : Bool :=
  c = ' ' || c = '\t' || c = '\n' || c = '\r' || c = '\x0b' || c = '\x0c'

/-- Python `str.strip`: drop whitespace from both ends. -/
def pyStrip (l : List Char) : List Char :=
  ((l.dropWhile isPySpace).reverse.dropWhile isPySpace).reverse

/-- Worker for `pySplitlines`: `acc` holds the current line, reversed. -/
def splitlinesGo : List Char → List Char → List (List Char)
  | [], acc => if acc.isEmpty then [] else [acc.reverse]
  | '\r' :: '\n' :: rest, acc => acc.reverse :: splitlinesGo rest []
  | '\r' :: rest, acc => acc.reverse :: splitlinesGo rest []
  | '\n' :: rest, acc => acc.reverse :: splitlinesGo rest []
  | c :: rest, acc => splitlinesGo rest (c :: acc)

/-- Python `str.splitlines` (for the `\r\n` / `\r` / `\n` separators):
line terminators are removed, and a trailing terminator produces no
trailing empty line. -/
def pySplitlines (s : List Char) : List (List Char) :=
  splitlinesGo s []

/-- Test `startsWithL needle hay`: is `needle` a prefix of `hay`? -/
def startsWithL : List Char → List Char → Bool
  | [], _ => true
  | _ :: _, [] => false
  | a :: as, b :: bs => if a = b then startsWithL as bs else false

/-- Test `containsL needle hay`: does `needle` occur contiguously in `hay`?
Model of Python's substring test `needle in hay`. -/
def containsL (needle : List Char) : List Char → Bool
  | [] => startsWithL needle []
  | c :: t => startsWithL needle (c :: t) || containsL needle t

/-- Python `needle in hay` on strings. -/
def pyContains (hay needle : String) : Bool :=
  containsL needle.data hay.data

/-- Python `'sep'.join(xs)`. -/
def pyJoin (sep : String) : List String → String
  | [] => ""
  | [x] => x
  | x :: xs => x ++ sep ++ pyJoin sep xs

/-- Worker for `pySplitColon1`; `acc` is the part before the colon, reversed. -/
def splitColonGo : List Char → List Char → List String
  | [], acc => [String.mk acc.reverse]
  | c :: rest, acc =>
    if c = ':' then [String.mk acc.reverse, String.mk rest]
    else splitColonGo rest (c :: acc)

/-- Python `v.split(':', 1)`: at most one split, at the first `':'`. -/
def pySplitColon1 (v : String) : List String :=
  splitColonGo v.data []

/-- Model of `v.split(':', 1)[1]` (line 163 of `pipeline.py`): `some` of the part
after the first colon, or `none` when the index raises `IndexError`. -/
def digestKey (v : String) : Option String :=
  match pySplitColon1 v with
  | _ :: k :: _ => some k
  | _ => none

/-- Python `str(x)` for an optional string (Python prints `None` for
`None`); header values coming from `dict.get` are stored as objects and
stringified when the record is serialized. -/
def pyStr : Option String → String
  | some s => s
  | none => "None"

/-! ### Association lists: the header dictionary and the digest index -/

/-- First-match lookup: `d.get(k)` / `k in d` on a dictionary with string
keys (the dictionary has unique keys, so first-match agrees with it). -/
def alGet {β : Type} : List (String × β) → String → Option β
  | [], _ => none
  | (k', v) :: t, k => if k' = k then some v else alGet t k

/-- Assignment `d[k] = v`: replace the value of the first entry with key `k`, or
append a new entry. -/
def alSet {β : Type} : List (String × β) → String → β → List (String × β)
  | [], k, v => [(k, v)]
  | (k', v') :: t, k, v => if k' = k then (k, v) :: t else (k', v') :: alSet t k v

/-- Removal of every entry with key `k`; on the unique-key lists produced
by the dictionary operations this is exactly `del d[k]`'s effect. -/
def alErase {β : Type} : List (String × β) → String → List (String × β)
  | [], _ => []
  | (k', v) :: t, k => if k' = k then alErase t k else (k', v) :: alErase t k

/-- Python `del d[k]`: `KeyError` when the key is absent. -/
def alDel {β : Type} (l : List (String × β)) (k : String) :
    Except String (List (String × β)) :=
  match alGet l k with
  | some _ => .ok (alErase l k)
  | none => .error "KeyError"

/-! ### The record model -/

/-- One WARC record: named header fields plus a raw payload. -/
structure WRecord where
  header : List (String × String)
  payload : String
deriving Repr, DecidableEq

/-- The digest index (`hashes` in the source): digest value →
`(WARC-Record-ID, WARC-Date, WARC-Target-URI)` of the first occurrence,
each as returned by `header.get` (hence optional). -/
abbrev Hashes := List (String × (Option String × Option String × Option String))

/-- The triple stored on first occurrence (lines 199-201):
`(header.get 'WARC-Record-ID', header.get 'WARC-Date',
header.get 'WARC-Target-URI')`. -/
def idTriple (r : WRecord) : Option String × Option String × Option String :=
  (alGet r.header "WARC-Record-ID", alGet r.header "WARC-Date",
   alGet r.header "WARC-Target-URI")

/-- Lines 165-170: split the payload into lines, keep the stripped lines up
to the first blank line.  (The comparisons with `"\r\n"` and `"\n"` mirror
the source's `line in ['\r\n', '\n', '']`; `splitlines` never yields the
first two, so only `''` can match.) -/
def collectHeaders : List (List Char) → List (List Char)
  | [] => []
  | l :: rest =>
    if l = ['\r', '\n'] || l = ['\n'] || l = [] then []
    else pyStrip l :: collectHeaders rest

/-- Line 171: `'\r\n'.join(headers) + '\r\n'*2` — the reconstructed
embedded header block of a payload. -/
def embeddedBlock (p : String) : String :=
  pyJoin "\r\n" ((collectHeaders (pySplitlines p.data)).map String.mk) ++ "\r\n\r\n"

/-- Lines 172-173: the test selecting the degenerate branch —
`'Content-Length: 0' in payload or 'content-length: 0' in payload`,
applied to the reconstructed block. -/
def zeroLengthCheck (payload : String) : Bool :=
  pyContains payload "Content-Length: 0" || pyContains payload "content-length: 0"

/-- Lines 174-183 up to the deletion: the seven header assignments
performed on a non-degenerate duplicate, in source order. -/
def setRevisitFields (h : List (String × String)) (payload : String)
    (e : Option String × Option String × Option String) : List (String × String) :=
  alSet (alSet (alSet (alSet (alSet (alSet (alSet h
    "Content-Length" (toString payload.length))
    "WARC-Refers-To" (pyStr e.1))
    "WARC-Refers-To-Date" (pyStr e.2.1))
    "WARC-Refers-To-Target-URI" (pyStr e.2.2))
    "WARC-Type" "revisit")
    "WARC-Truncated" "length")
    "WARC-Profile" "http://netpreserve.org/warc/1.0/revisit/identical-payload-digest"

/-- Lines 184-192: the audit line appended to `dedup_log` (note the
trailing `\r\n` inside the format string). -/
def auditLine (dID dURL dDate oID oURL oDate : String) : String :=
  "WARC-Record-ID:" ++ dID ++ "; WARC-Target-URI:" ++ dURL ++ "; WARC-Date:" ++
    dDate ++ " duplicate of WARC-Record-ID:" ++ oID ++ "; WARC-Target-URI:" ++
    oURL ++ "; WARC-Date:" ++ oDate ++ "\r\n"

/-- Lines 161-207: processing of one record from the loop body.  Returns
the record handed to the writer, the updated digest index, and the audit
entry (if any).  The source's locals `payload_` (the original payload) and
`payload` (the reconstructed block) appear inline as `r.payload` and
`embeddedBlock r.payload`.  Errors model the uncaught Python exceptions:
* `record.type` is the library property `header['WARC-Type']`
  (`KeyError` when absent);
* `header.get('WARC-Payload-Digest')` is `None` when absent, and
  `None.split` raises `AttributeError` (line 163);
* `.split(':', 1)[1]` raises `IndexError` when the value has no colon;
* `del record.header['WARC-Block-Digest']` (line 183) raises `KeyError`
  when absent, and the audit-line formatting reads `WARC-Record-ID`,
  `WARC-Target-URI` and `WARC-Date` with fallible `[...]` lookups. -/
def stepRecord (hashes : Hashes) (r : WRecord) :
    Except String (WRecord × Hashes × Option String) :=
  match alGet r.header "WARC-Type" with
  | none => .error "KeyError: WARC-Type"
  | some t =>
    if t = "response" then
      match alGet r.header "WARC-Payload-Digest" with
      | none => .error "AttributeError: NoneType object has no attribute split"
      | some dv =>
        match digestKey dv with
        | none => .error "IndexError: list index out of range"
        | some h =>
          match alGet hashes h with
          | some e =>
            if zeroLengthCheck (embeddedBlock r.payload) = false then
              match alDel (setRevisitFields r.header (embeddedBlock r.payload) e)
                    "WARC-Block-Digest" with
              | .error m => .error m
              | .ok h8 =>
                match alGet h8 "WARC-Record-ID", alGet h8 "WARC-Target-URI",
                      alGet h8 "WARC-Date" with
                | some dID, some dURL, some dDate =>
                  .ok (⟨h8, embeddedBlock r.payload⟩, hashes,
                       some (auditLine dID dURL dDate (pyStr e.1) (pyStr e.2.2) (pyStr e.2.1)))
                | _, _, _ => .error "KeyError: audit fields"
            else
              .ok (⟨r.header, r.payload⟩, hashes, none)
          | none =>
            .ok (⟨r.header, r.payload⟩, alSet hashes h (idTriple r), none)
    else
      .ok (r, hashes, none)

/-- Lines 160-208: process every record after the info record, threading
the digest index and accumulating the audit log in order. -/
def processTail (hashes : Hashes) :
    List WRecord → Except String (List WRecord × List String × Hashes)
  | [] => .ok ([], [], hashes)
  | r :: rs =>
    match stepRecord hashes r with
    | .error m => .error m
    | .ok (r', h', le) =>
      match processTail h' rs with
      | .error m => .error m
      | .ok (out, log, hF) =>
        .ok (r' :: out,
             (match le with | some en => en :: log | none => log),
             hF)

/-- Modelled from the `warc` library (an external dependency, not part of
this repository): constructing a `WARCRecord` with `defaults=True` (line
156) fills the `Content-Length` header from the payload when the field is
absent.  The library also fills `WARC-Record-ID` / `WARC-Date` /
`Content-Type` / `WARC-Payload-Digest` with freshly generated values when
absent; those fills touch none of the fields inspected below and are not
modelled. -/
def mkDefaults (r : WRecord) : WRecord :=
  match alGet r.header "Content-Length" with
  | some _ => r
  | none => ⟨alSet r.header "Content-Length" (toString r.payload.length), r.payload⟩

/-- Lines 153-158: rewrite of the info record — set `WARC-Filename` to the
output archive's name, delete `WARC-Block-Digest` (`KeyError` when
absent), keep the payload. -/
def processInfo (warcFileBase : String) (info : WRecord) : Except String WRecord :=
  match alDel (alSet info.header "WARC-Filename" (warcFileBase ++ "-deduplicated.warc.gz"))
        "WARC-Block-Digest" with
  | .error m => .error m
  | .ok h => .ok (mkDefaults ⟨h, info.payload⟩)

/-- The whole `Deduplicate.process` pass over a parsed archive (the list of
records of the input file, info record first): the records written to the
output archive, in order, and the accumulated audit log. -/
def dedupProcess (warcFileBase : String) :
    List WRecord → Except String (List WRecord × List String)
  | [] => .error "EOFError: empty archive"
  | info :: rest =>
    match processInfo warcFileBase info with
    | .error m => .error m
    | .ok info' =>
      match processTail [] rest with
      | .error m => .error m
      | .ok (out, log, _) => .ok (info' :: out, log)

/-- Lines 209-210: the text flushed to the audit-log sink,
`'\r\n'.join(dedup_log)`. -/
def flushLog (log : List String) : String :=
  pyJoin "\r\n" log

/-! ### Observation helpers used by the claim statements -/

/-- Did the computation succeed? -/
def okB {α : Type} : Except String α → Bool
  | .ok _ => true
  | .error _ => false

/-- The `i`-th record written to the output, when the pass succeeded. -/
def outRecGet (res : Except String (List WRecord × List String)) (i : Nat) :
    Option WRecord :=
  match res with
  | .ok (out, _) => out[i]?
  | .error _ => none

/-- A header field of the `i`-th output record. -/
def outHeaderGet (res : Except String (List WRecord × List String)) (i : Nat)
    (k : String) : Option String :=
  match outRecGet res i with
  | some r => alGet r.header k
  | none => none

/-- The payload of the `i`-th output record. -/
def outPayloadGet (res : Except String (List WRecord × List String)) (i : Nat) :
    Option String :=
  match outRecGet res i with
  | some r => some r.payload
  | none => none

/-- The accumulated audit log, when the pass succeeded. -/
def logGet (res : Except String (List WRecord × List String)) :
    Option (List String) :=
  match res with
  | .ok (_, log) => some log
  | .error _ => none

/-- Consistency test: `Content-Length`, when present, states the payload's byte length. -/
def clConsistentB (r : WRecord) : Bool :=
  match alGet r.header "Content-Length" with
  | none => true
  | some v => v = toString r.payload.length

/-- The pair (input record, output record) witnesses a rewrite into a
revisit record: the input was a response and the output carries
`WARC-Type: revisit`. -/
def rewrittenToRevisit (r r' : WRecord) : Bool :=
  decide (alGet r.header "WARC-Type" = some "response") &&
  decide (alGet r'.header "WARC-Type" = some "revisit")

/-- The audit line reconstructed from an output revisit record: its own
identity fields plus its `WARC-Refers-To*` fields (which hold the
original's identity). -/
def auditFromRecord (r' : WRecord) : String :=
  auditLine (pyStr (alGet r'.header "WARC-Record-ID"))
            (pyStr (alGet r'.header "WARC-Target-URI"))
            (pyStr (alGet r'.header "WARC-Date"))
            (pyStr (alGet r'.header "WARC-Refers-To"))
            (pyStr (alGet r'.header "WARC-Refers-To-Target-URI"))
            (pyStr (alGet r'.header "WARC-Refers-To-Date"))


/-- A header field of the record produced by one `stepRecord`. -/
def stepHeaderGet (res : Except String (WRecord × Hashes × Option String))
    (k : String) : Option String :=
  match res with
  | .ok (r', _, _) => alGet r'.header k
  | .error _ => none

/-- The per-pair audit expectation: a (input record, output record) pair that
is a rewrite into revisit contributes the audit line reconstructed from the
output record, any other pair contributes nothing. -/
def auditSpec (p : WRecord × WRecord) : Option String :=
  if rewrittenToRevisit p.1 p.2 then some (auditFromRecord p.2) else none

/-! ### Concrete records for the closed counterexamples and witnesses -/

def cInfo : WRecord :=
  ⟨[("WARC-Type", "warcinfo"), ("WARC-Record-ID", "<urn:uuid:info>"),
    ("WARC-Date", "2017-05-01T00:00:00Z"), ("Content-Length", "5"),
    ("WARC-Block-Digest", "sha1:IBD")], "robot"⟩

def cResp1 : WRecord :=
  ⟨[("WARC-Type", "response"), ("WARC-Record-ID", "<urn:uuid:1>"),
    ("WARC-Date", "D1"), ("WARC-Target-URI", "http://a/1"),
    ("WARC-Payload-Digest", "sha1:AAA"), ("WARC-Block-Digest", "sha1:B1"),
    ("Content-Length", "24")], "HTTP/1.1 200 OK\r\n\r\nHELLO"⟩

def cResp2 : WRecord :=
  ⟨[("WARC-Type", "response"), ("WARC-Record-ID", "<urn:uuid:2>"),
    ("WARC-Date", "D2"), ("WARC-Target-URI", "http://a/2"),
    ("WARC-Payload-Digest", "sha1:AAA"), ("WARC-Block-Digest", "sha1:B2"),
    ("Content-Length", "24")], "HTTP/1.1 200 OK\r\n\r\nHELLO"⟩

def cResp3 : WRecord :=
  ⟨[("WARC-Type", "response"), ("WARC-Record-ID", "<urn:uuid:3>"),
    ("WARC-Date", "D3"), ("WARC-Target-URI", "http://a/3"),
    ("WARC-Payload-Digest", "sha1:AAA"), ("WARC-Block-Digest", "sha1:B3"),
    ("Content-Length", "24")], "HTTP/1.1 200 OK\r\n\r\nHELLO"⟩

/-- A duplicate whose embedded header block declares a zero-length inner
body (canonical casing) but whose raw payload still carries a stray byte
after the blank line, so that the trimmed block differs from the payload. -/
def cRespZero : WRecord :=
  ⟨[("WARC-Type", "response"), ("WARC-Record-ID", "<urn:uuid:z>"),
    ("WARC-Date", "DZ"), ("WARC-Target-URI", "http://a/z"),
    ("WARC-Payload-Digest", "sha1:AAA"), ("WARC-Block-Digest", "sha1:BZ"),
    ("Content-Length", "39")], "HTTP/1.1 200 OK\r\nContent-Length: 0\r\n\r\nX"⟩

/-- A duplicate declaring a zero-length inner body in upper-case spelling. -/
def cRespUpper : WRecord :=
  ⟨[("WARC-Type", "response"), ("WARC-Record-ID", "<urn:uuid:u>"),
    ("WARC-Date", "DU"), ("WARC-Target-URI", "http://a/u"),
    ("WARC-Payload-Digest", "sha1:AAA"), ("WARC-Block-Digest", "sha1:BU"),
    ("Content-Length", "38")], "HTTP/1.1 200 OK\r\nCONTENT-LENGTH: 0\r\n\r\n"⟩

/-- A response record with no `WARC-Payload-Digest` field. -/
def cNoDigest : WRecord :=
  ⟨[("WARC-Type", "response"), ("WARC-Record-ID", "<urn:uuid:nd>"),
    ("WARC-Date", "DN"), ("WARC-Target-URI", "http://a/nd"),
    ("Content-Length", "1")], "x"⟩

/-- A response record whose payload-digest value has no colon. -/
def cNoColon : WRecord :=
  ⟨[("WARC-Type", "response"), ("WARC-Record-ID", "<urn:uuid:nc>"),
    ("WARC-Date", "DC"), ("WARC-Target-URI", "http://a/nc"),
    ("WARC-Payload-Digest", "NOCOLON"), ("Content-Length", "1")], "x"⟩

def cHashes0 : Hashes := [("AAA", (some "<urn:uuid:0>", some "D0", some "U0"))]

/-- The info record of the concrete archives after the rewrite. -/
def cInfoOut : WRecord :=
  ⟨[("WARC-Type", "warcinfo"), ("WARC-Record-ID", "<urn:uuid:info>"),
    ("WARC-Date", "2017-05-01T00:00:00Z"), ("Content-Length", "5"),
    ("WARC-Filename", "base-deduplicated.warc.gz")], "robot"⟩

/-- Record `cResp2` after the revisit rewrite. -/
def cRev2 : WRecord :=
  ⟨[("WARC-Type", "revisit"), ("WARC-Record-ID", "<urn:uuid:2>"),
    ("WARC-Date", "D2"), ("WARC-Target-URI", "http://a/2"),
    ("WARC-Payload-Digest", "sha1:AAA"), ("Content-Length", "19"),
    ("WARC-Refers-To", "<urn:uuid:1>"), ("WARC-Refers-To-Date", "D1"),
    ("WARC-Refers-To-Target-URI", "http://a/1"), ("WARC-Truncated", "length"),
    ("WARC-Profile", "http://netpreserve.org/warc/1.0/revisit/identical-payload-digest")],
   "HTTP/1.1 200 OK\r\n\r\n"⟩

/-- Record `cResp3` after the revisit rewrite. -/
def cRev3 : WRecord :=
  ⟨[("WARC-Type", "revisit"), ("WARC-Record-ID", "<urn:uuid:3>"),
    ("WARC-Date", "D3"), ("WARC-Target-URI", "http://a/3"),
    ("WARC-Payload-Digest", "sha1:AAA"), ("Content-Length", "19"),
    ("WARC-Refers-To", "<urn:uuid:1>"), ("WARC-Refers-To-Date", "D1"),
    ("WARC-Refers-To-Target-URI", "http://a/1"), ("WARC-Truncated", "length"),
    ("WARC-Profile", "http://netpreserve.org/warc/1.0/revisit/identical-payload-digest")],
   "HTTP/1.1 200 OK\r\n\r\n"⟩

def cOut3 : List WRecord := [cInfoOut, cResp1, cRev2]

def cEntry2 : String :=
  "WARC-Record-ID:<urn:uuid:2>; WARC-Target-URI:http://a/2; WARC-Date:D2 " ++
  "duplicate of WARC-Record-ID:<urn:uuid:1>; WARC-Target-URI:http://a/1; " ++
  "WARC-Date:D1\r\n"

def cEntry3 : String :=
  "WARC-Record-ID:<urn:uuid:3>; WARC-Target-URI:http://a/3; WARC-Date:D3 " ++
  "duplicate of WARC-Record-ID:<urn:uuid:1>; WARC-Target-URI:http://a/1; " ++
  "WARC-Date:D1\r\n"

def cLog2 : List String := [cEntry2, cEntry3]

/-! ### Association-list lemmas -/

theorem alGet_alSet_self {β : Type} (l : List (String × β)) (k : String) (v : β) :
    alGet (alSet l k v) k = some v := by
  induction l with
  | nil => simp [alSet, alGet]
  | cons p t ih =>
    by_cases h : p.1 = k
    · simp [alSet, alGet, h]
    · simp [alSet, alGet, h, ih]

theorem alGet_alSet_ne {β : Type} (l : List (String × β)) {k' k : String} (v : β)
    (h : ¬ k' = k) : alGet (alSet l k' v) k = alGet l k := by
  have h2 : ¬ k = k' := fun hh => h hh.symm
  induction l with
  | nil => simp [alSet, alGet, h]
  | cons p t ih =>
    by_cases hp : p.1 = k'
    · simp [alSet, alGet, hp, h]
    · by_cases hpk : p.1 = k
      · simp [alSet, alGet, hp, hpk, h2]
      · simp [alSet, alGet, hp, hpk, ih]

theorem alGet_alErase_self {β : Type} (l : List (String × β)) (k : String) :
    alGet (alErase l k) k = none := by
  induction l with
  | nil => simp [alErase, alGet]
  | cons p t ih =>
    by_cases h : p.1 = k
    · simp [alErase, alGet, h, ih]
    · simp [alErase, alGet, h, ih]

theorem alGet_alErase_ne {β : Type} (l : List (String × β)) {k' k : String}
    (h : ¬ k' = k) : alGet (alErase l k') k = alGet l k := by
  have h2 : ¬ k = k' := fun hh => h hh.symm
  induction l with
  | nil => simp [alErase, alGet]
  | cons p t ih =>
    by_cases hp : p.1 = k'
    · simp [alErase, alGet, hp, h, ih]
    · by_cases hpk : p.1 = k
      · simp [alErase, alGet, hp, hpk, h2]
      · simp [alErase, alGet, hp, hpk, ih]

theorem alDel_of_some {β : Type} (l : List (String × β)) (k : String) (v : β)
    (h : alGet l k = some v) : alDel l k = .ok (alErase l k) := by
  simp [alDel, h]

/-! ### Branch characterizations of `stepRecord` -/

theorem stepRecord_other (hashes : Hashes) (r : WRecord) (t : String)
    (ht : alGet r.header "WARC-Type" = some t) (hne : ¬ t = "response") :
    stepRecord hashes r = .ok (r, hashes, none) := by
  simp [stepRecord, ht, hne]

theorem stepRecord_noDigest (hashes : Hashes) (r : WRecord)
    (ht : alGet r.header "WARC-Type" = some "response")
    (hd : alGet r.header "WARC-Payload-Digest" = none) :
    stepRecord hashes r = .error "AttributeError: NoneType object has no attribute split" := by
  simp [stepRecord, ht, hd]

theorem stepRecord_noColon (hashes : Hashes) (r : WRecord) (dv : String)
    (ht : alGet r.header "WARC-Type" = some "response")
    (hd : alGet r.header "WARC-Payload-Digest" = some dv)
    (hk : digestKey dv = none) :
    stepRecord hashes r = .error "IndexError: list index out of range" := by
  simp [stepRecord, ht, hd, hk]

theorem stepRecord_first (hashes : Hashes) (r : WRecord) (dv k : String)
    (ht : alGet r.header "WARC-Type" = some "response")
    (hd : alGet r.header "WARC-Payload-Digest" = some dv)
    (hk : digestKey dv = some k)
    (he : alGet hashes k = none) :
    stepRecord hashes r = .ok (r, alSet hashes k (idTriple r), none) := by
  simp [stepRecord, ht, hd, hk, he]

theorem stepRecord_degenerate (hashes : Hashes) (r : WRecord) (dv k : String)
    (e : Option String × Option String × Option String)
    (ht : alGet r.header "WARC-Type" = some "response")
    (hd : alGet r.header "WARC-Payload-Digest" = some dv)
    (hk : digestKey dv = some k)
    (he : alGet hashes k = some e)
    (hz : zeroLengthCheck (embeddedBlock r.payload) = true) :
    stepRecord hashes r = .ok (r, hashes, none) := by
  simp [stepRecord, ht, hd, hk, he, hz]

/-- Header field reads on the header of a rewritten revisit record. -/
theorem revisit_header_gets (h : List (String × String)) (p : String)
    (e : Option String × Option String × Option String) :
    alGet (alErase (setRevisitFields h p e) "WARC-Block-Digest") "WARC-Type" = some "revisit" ∧
    alGet (alErase (setRevisitFields h p e) "WARC-Block-Digest") "Content-Length" =
      some (toString p.length) ∧
    alGet (alErase (setRevisitFields h p e) "WARC-Block-Digest") "WARC-Refers-To" =
      some (pyStr e.1) ∧
    alGet (alErase (setRevisitFields h p e) "WARC-Block-Digest") "WARC-Refers-To-Date" =
      some (pyStr e.2.1) ∧
    alGet (alErase (setRevisitFields h p e) "WARC-Block-Digest") "WARC-Refers-To-Target-URI" =
      some (pyStr e.2.2) ∧
    alGet (alErase (setRevisitFields h p e) "WARC-Block-Digest") "WARC-Truncated" =
      some "length" ∧
    alGet (alErase (setRevisitFields h p e) "WARC-Block-Digest") "WARC-Profile" =
      some "http://netpreserve.org/warc/1.0/revisit/identical-payload-digest" ∧
    alGet (alErase (setRevisitFields h p e) "WARC-Block-Digest") "WARC-Block-Digest" = none ∧
    alGet (alErase (setRevisitFields h p e) "WARC-Block-Digest") "WARC-Record-ID" =
      alGet h "WARC-Record-ID" ∧
    alGet (alErase (setRevisitFields h p e) "WARC-Block-Digest") "WARC-Target-URI" =
      alGet h "WARC-Target-URI" ∧
    alGet (alErase (setRevisitFields h p e) "WARC-Block-Digest") "WARC-Date" =
      alGet h "WARC-Date" := by
  refine ⟨?_, ?_, ?_, ?_, ?_, ?_, ?_, ?_, ?_, ?_, ?_⟩ <;>
    simp [setRevisitFields, alGet_alSet_self, alGet_alSet_ne, alGet_alErase_self,
      alGet_alErase_ne]

theorem stepRecord_revisit (hashes : Hashes) (r : WRecord) (dv k bd dID dURL dDate : String)
    (e : Option String × Option String × Option String)
    (ht : alGet r.header "WARC-Type" = some "response")
    (hd : alGet r.header "WARC-Payload-Digest" = some dv)
    (hk : digestKey dv = some k)
    (he : alGet hashes k = some e)
    (hz : zeroLengthCheck (embeddedBlock r.payload) = false)
    (hbd : alGet r.header "WARC-Block-Digest" = some bd)
    (hid : alGet r.header "WARC-Record-ID" = some dID)
    (huri : alGet r.header "WARC-Target-URI" = some dURL)
    (hdate : alGet r.header "WARC-Date" = some dDate) :
    stepRecord hashes r =
      .ok (⟨alErase (setRevisitFields r.header (embeddedBlock r.payload) e) "WARC-Block-Digest",
            embeddedBlock r.payload⟩, hashes,
           some (auditLine dID dURL dDate (pyStr e.1) (pyStr e.2.2) (pyStr e.2.1))) := by
  have hbd' : alGet (setRevisitFields r.header (embeddedBlock r.payload) e)
      "WARC-Block-Digest" = some bd := by
    simp [setRevisitFields, alGet_alSet_ne, hbd]
  have hdel := alDel_of_some (setRevisitFields r.header (embeddedBlock r.payload) e)
      "WARC-Block-Digest" bd hbd'
  have hg := revisit_header_gets r.header (embeddedBlock r.payload) e
  simp [stepRecord, ht, hd, hk, he, hz, hdel, hg.2.2.2.2.2.2.2.2.1, hg.2.2.2.2.2.2.2.2.2.1,
    hg.2.2.2.2.2.2.2.2.2.2, hid, huri, hdate]

theorem alDel_ok_inv {β : Type} {l h8 : List (String × β)} {k : String}
    (h : alDel l k = .ok h8) : h8 = alErase l k := by
  unfold alDel at h
  split at h
  · simp at h
    exact h.symm
  · simp at h

/-- Inversion: every successful `stepRecord` is a pass-through, a
first-occurrence insertion, or a revisit rewrite. -/
theorem stepRecord_ok_cases (hashes : Hashes) (r r' : WRecord) (h' : Hashes)
    (le : Option String) (hstep : stepRecord hashes r = .ok (r', h', le)) :
    (r' = r ∧ h' = hashes ∧ le = none) ∨
    (∃ k, r' = r ∧ h' = alSet hashes k (idTriple r) ∧ le = none ∧
       alGet hashes k = none ∧ alGet r.header "WARC-Type" = some "response") ∨
    (∃ k e dID dURL dDate,
       alGet r.header "WARC-Type" = some "response" ∧
       alGet hashes k = some e ∧
       alGet r.header "WARC-Record-ID" = some dID ∧
       alGet r.header "WARC-Target-URI" = some dURL ∧
       alGet r.header "WARC-Date" = some dDate ∧
       r' = ⟨alErase (setRevisitFields r.header (embeddedBlock r.payload) e)
               "WARC-Block-Digest", embeddedBlock r.payload⟩ ∧
       h' = hashes ∧
       le = some (auditLine dID dURL dDate (pyStr e.1) (pyStr e.2.2) (pyStr e.2.1))) := by
  unfold stepRecord at hstep
  split at hstep
  · simp at hstep
  rename_i t ht
  split at hstep
  case isFalse =>
    simp at hstep
    exact Or.inl ⟨hstep.1.symm, hstep.2.1.symm, hstep.2.2.symm⟩
  rename_i htr
  subst htr
  split at hstep
  · simp at hstep
  rename_i dv hd
  split at hstep
  · simp at hstep
  rename_i k hk
  split at hstep
  · -- duplicate: the digest is in the index
    rename_i e he
    split at hstep
    · -- non-degenerate: the revisit rewrite
      rename_i hz
      split at hstep
      · simp at hstep
      rename_i h8 hdel
      split at hstep
      · rename_i dID dURL dDate hgid hgurl hgdate
        simp at hstep
        obtain ⟨hr1, hh1, hle⟩ := hstep
        have h8e := alDel_ok_inv hdel
        subst h8e
        have hg := revisit_header_gets r.header (embeddedBlock r.payload) e
        refine Or.inr (Or.inr ⟨k, e, dID, dURL, dDate, ht, he, ?_, ?_, ?_, hr1.symm,
          hh1.symm, hle.symm⟩)
        · rw [← hg.2.2.2.2.2.2.2.2.1]
          exact hgid
        · rw [← hg.2.2.2.2.2.2.2.2.2.1]
          exact hgurl
        · rw [← hg.2.2.2.2.2.2.2.2.2.2]
          exact hgdate
      · simp at hstep
    · -- degenerate: the record passes through unchanged
      simp at hstep
      exact Or.inl ⟨hstep.1.symm, hstep.2.1.symm, hstep.2.2.symm⟩
  · -- first occurrence: insert into the index
    rename_i he
    simp at hstep
    exact Or.inr (Or.inl ⟨k, hstep.1.symm, hstep.2.1.symm, hstep.2.2.symm, he, ht⟩)

theorem stepRecord_preserves_hash (hashes : Hashes) (r r' : WRecord) (h' : Hashes)
    (le : Option String) (k : String) (e : Option String × Option String × Option String)
    (hk : alGet hashes k = some e)
    (hstep : stepRecord hashes r = .ok (r', h', le)) : alGet h' k = some e := by
  rcases stepRecord_ok_cases hashes r r' h' le hstep with
    ⟨_, hh, _⟩ | ⟨k2, _, hh, _, hn, _⟩ | ⟨k2, e2, d1, d2, d3, _, _, _, _, _, _, hh, _⟩
  · rw [hh]
    exact hk
  · rw [hh]
    have hne : ¬ k2 = k := by
      intro hkk
      subst hkk
      rw [hk] at hn
      exact Option.noConfusion hn
    rw [alGet_alSet_ne _ _ hne]
    exact hk
  · rw [hh]
    exact hk

theorem stepRecord_clConsistent (hashes : Hashes) (r r' : WRecord) (h' : Hashes)
    (le : Option String) (hc : clConsistentB r = true)
    (hstep : stepRecord hashes r = .ok (r', h', le)) : clConsistentB r' = true := by
  rcases stepRecord_ok_cases hashes r r' h' le hstep with
    ⟨hr, _, _⟩ | ⟨k2, hr, _, _, _, _⟩ | ⟨k2, e2, d1, d2, d3, _, _, _, _, _, hr, _, _⟩
  · rw [hr]
    exact hc
  · rw [hr]
    exact hc
  · have hg := revisit_header_gets r.header (embeddedBlock r.payload) e2
    rw [hr]
    simp [clConsistentB, hg.2.1]

theorem stepRecord_audit (hashes : Hashes) (r r' : WRecord) (h' : Hashes)
    (le : Option String) (hstep : stepRecord hashes r = .ok (r', h', le)) :
    le = if rewrittenToRevisit r r' then some (auditFromRecord r') else none := by
  rcases stepRecord_ok_cases hashes r r' h' le hstep with
    ⟨hr, _, hle⟩ | ⟨k2, hr, _, hle, _, _⟩ | ⟨k2, e2, d1, d2, d3, hT, _, hid, hurl, hdate, hr, _, hle⟩
  · rw [hle, hr]
    by_cases ht : alGet r.header "WARC-Type" = some "response"
    · simp [rewrittenToRevisit, ht]
    · simp [rewrittenToRevisit, ht]
  · rw [hle, hr]
    by_cases ht : alGet r.header "WARC-Type" = some "response"
    · simp [rewrittenToRevisit, ht]
    · simp [rewrittenToRevisit, ht]
  · rw [hle, hr]
    have hg := revisit_header_gets r.header (embeddedBlock r.payload) e2
    have hrw : rewrittenToRevisit r
        ⟨alErase (setRevisitFields r.header (embeddedBlock r.payload) e2) "WARC-Block-Digest",
         embeddedBlock r.payload⟩ = true := by
      simp [rewrittenToRevisit, hT, hg.1]
    rw [hrw]
    simp [auditFromRecord, hg.2.2.1, hg.2.2.2.1, hg.2.2.2.2.1,
      hg.2.2.2.2.2.2.2.2.1, hg.2.2.2.2.2.2.2.2.2.1, hg.2.2.2.2.2.2.2.2.2.2,
      hid, hurl, hdate, pyStr]

theorem processTail_preserves_hash (rs : List WRecord) :
    ∀ (hashes : Hashes) (k : String) (e : Option String × Option String × Option String)
      (out : List WRecord) (log : List String) (hF : Hashes),
      alGet hashes k = some e → processTail hashes rs = .ok (out, log, hF) →
      alGet hF k = some e := by
  induction rs with
  | nil =>
    intro hashes k e out log hF hk hok
    simp [processTail] at hok
    obtain ⟨h1, h2, h3⟩ := hok
    subst h3
    exact hk
  | cons r rs ih =>
    intro hashes k e out log hF hk hok
    unfold processTail at hok
    cases hstep : stepRecord hashes r with
    | error m =>
      rw [hstep] at hok
      simp at hok
    | ok v =>
      obtain ⟨r', h', le⟩ := v
      rw [hstep] at hok
      simp only [] at hok
      cases heq : processTail h' rs with
      | error m =>
        rw [heq] at hok
        simp at hok
      | ok w =>
        obtain ⟨out2, log2, hF2⟩ := w
        rw [heq] at hok
        simp at hok
        obtain ⟨h1, h2, h3⟩ := hok
        subst h3
        have hk2 := stepRecord_preserves_hash hashes r r' h' le k e hk hstep
        exact ih h' k e out2 log2 hF2 hk2 heq

theorem processTail_clConsistent (rs : List WRecord) :
    ∀ (hashes : Hashes) (out : List WRecord) (log : List String) (hF : Hashes),
      (∀ r ∈ rs, clConsistentB r = true) →
      processTail hashes rs = .ok (out, log, hF) →
      ∀ r' ∈ out, clConsistentB r' = true := by
  induction rs with
  | nil =>
    intro hashes out log hF hin hok
    simp [processTail] at hok
    obtain ⟨h1, h2, h3⟩ := hok
    subst h1
    intro r' hr'
    cases hr'
  | cons r rs ih =>
    intro hashes out log hF hin hok
    unfold processTail at hok
    cases hstep : stepRecord hashes r with
    | error m =>
      rw [hstep] at hok
      simp at hok
    | ok v =>
      obtain ⟨r', h', le⟩ := v
      rw [hstep] at hok
      simp only [] at hok
      cases heq : processTail h' rs with
      | error m =>
        rw [heq] at hok
        simp at hok
      | ok w =>
        obtain ⟨out2, log2, hF2⟩ := w
        rw [heq] at hok
        simp at hok
        obtain ⟨h1, h2, h3⟩ := hok
        subst h1
        intro r2 hr2
        rcases List.mem_cons.mp hr2 with hm | hm
        · subst hm
          exact stepRecord_clConsistent hashes r r2 h' le (hin r (List.mem_cons_self r rs)) hstep
        · exact ih h' out2 log2 hF2 (fun rr hrr => hin rr (List.mem_cons_of_mem r hrr)) heq r2 hm

theorem processTail_audit (rs : List WRecord) :
    ∀ (hashes : Hashes) (out : List WRecord) (log : List String) (hF : Hashes),
      processTail hashes rs = .ok (out, log, hF) →
      log = (rs.zip out).filterMap
        (fun p => if rewrittenToRevisit p.1 p.2 then some (auditFromRecord p.2) else none) := by
  induction rs with
  | nil =>
    intro hashes out log hF hok
    simp [processTail] at hok
    obtain ⟨h1, h2, h3⟩ := hok
    subst h2
    simp
  | cons r rs ih =>
    intro hashes out log hF hok
    unfold processTail at hok
    cases hstep : stepRecord hashes r with
    | error m =>
      rw [hstep] at hok
      simp at hok
    | ok v =>
      obtain ⟨r', h', le⟩ := v
      rw [hstep] at hok
      simp only [] at hok
      cases heq : processTail h' rs with
      | error m =>
        rw [heq] at hok
        simp at hok
      | ok w =>
        obtain ⟨out2, log2, hF2⟩ := w
        rw [heq] at hok
        simp at hok
        obtain ⟨h1, h2, h3⟩ := hok
        subst h1
        subst h2
        have hle := stepRecord_audit hashes r r' h' le hstep
        have hlog2 := ih h' out2 log2 hF2 heq
        cases hb : rewrittenToRevisit r r' with
        | true =>
          rw [hb] at hle
          simp at hle
          subst hle
          simp [hb, hlog2]
        | false =>
          rw [hb] at hle
          simp at hle
          subst hle
          simp [hb, hlog2]

theorem processTail_error_of_bad (rs : List WRecord) (r : WRecord) (hmem : r ∈ rs)
    (hbad : ∀ hashes : Hashes, okB (stepRecord hashes r) = false) :
    ∀ hashes : Hashes, okB (processTail hashes rs) = false := by
  induction rs with
  | nil => cases hmem
  | cons r0 rs ih =>
    intro hashes
    unfold processTail
    rcases List.mem_cons.mp hmem with heq | hmem2
    · subst heq
      have hb := hbad hashes
      cases hstep : stepRecord hashes r with
      | error m => simp [hstep, okB]
      | ok v =>
        rw [hstep] at hb
        simp [okB] at hb
    · cases hstep : stepRecord hashes r0 with
      | error m => simp [hstep, okB]
      | ok v =>
        obtain ⟨r', h', le⟩ := v
        have hrec := ih hmem2 h'
        cases hpt : processTail h' rs with
        | error m => simp [hstep, hpt, okB]
        | ok w =>
          rw [hpt] at hrec
          simp [okB] at hrec

/-! ### Substring lemmas (for the audit-log flush) -/

theorem strData_append (x y : String) : (x ++ y).data = x.data ++ y.data := rfl

theorem startsWithL_self_append (n s : List Char) : startsWithL n (n ++ s) = true := by
  induction n with
  | nil => simp [startsWithL]
  | cons c t ih => simp [startsWithL, ih]

theorem containsL_self_append (n s : List Char) : containsL n (n ++ s) = true := by
  cases n with
  | nil =>
    cases s with
    | nil => simp [containsL, startsWithL]
    | cons c t => simp [containsL, startsWithL]
  | cons c t =>
    simp [containsL, startsWithL, startsWithL_self_append]

theorem containsL_append_left (n p h : List Char) (hc : containsL n h = true) :
    containsL n (p ++ h) = true := by
  induction p with
  | nil => simpa using hc
  | cons c t ih => simp [containsL, ih]

/-! ### The digest-key split -/

theorem splitColonGo_with_colon (a : List Char) (b : List Char) :
    ∀ acc : List Char, (':' ∈ a → False) →
      splitColonGo (a ++ ':' :: b) acc = [String.mk (acc.reverse ++ a), String.mk b] := by
  induction a with
  | nil =>
    intro acc ha
    simp [splitColonGo]
  | cons c a2 ih =>
    intro acc ha
    have hc : ¬ c = ':' := fun h => ha (by rw [h]; exact List.mem_cons_self _ _)
    have ha2 : ':' ∈ a2 → False := fun h => ha (List.mem_cons_of_mem _ h)
    have hone : splitColonGo ((c :: a2) ++ ':' :: b) acc =
        splitColonGo (a2 ++ ':' :: b) (c :: acc) := by
      simp [splitColonGo, hc]
    rw [hone, ih (c :: acc) ha2]
    simp

theorem splitColonGo_no_colon (a : List Char) :
    ∀ acc : List Char, (':' ∈ a → False) →
      splitColonGo a acc = [String.mk (acc.reverse ++ a)] := by
  induction a with
  | nil =>
    intro acc ha
    simp [splitColonGo]
  | cons c a2 ih =>
    intro acc ha
    have hc : ¬ c = ':' := fun h => ha (by rw [h]; exact List.mem_cons_self _ _)
    have ha2 : ':' ∈ a2 → False := fun h => ha (List.mem_cons_of_mem _ h)
    have hone : splitColonGo (c :: a2) acc = splitColonGo a2 (c :: acc) := by
      simp [splitColonGo, hc]
    rw [hone, ih (c :: acc) ha2]
    simp

theorem digestKey_no_colon (v : String) (h : ':' ∈ v.data → False) :
    digestKey v = none := by
  unfold digestKey pySplitColon1
  rw [splitColonGo_no_colon v.data [] h]

/-! ### Inversion of the info-record rewrite and the whole pass -/

theorem processInfo_ok_inv (base : String) (info info' : WRecord)
    (h : processInfo base info = .ok info') :
    info' = mkDefaults
      ⟨alErase (alSet info.header "WARC-Filename" (base ++ "-deduplicated.warc.gz"))
         "WARC-Block-Digest", info.payload⟩ := by
  unfold processInfo at h
  cases hdel : alDel (alSet info.header "WARC-Filename" (base ++ "-deduplicated.warc.gz"))
      "WARC-Block-Digest" with
  | error m =>
    rw [hdel] at h
    simp at h
  | ok h2 =>
    rw [hdel] at h
    simp at h
    rw [← h, alDel_ok_inv hdel]

theorem dedupProcess_ok_inv (base : String) (info : WRecord) (rest : List WRecord)
    (out : List WRecord) (log : List String)
    (h : dedupProcess base (info :: rest) = .ok (out, log)) :
    ∃ info' out2 hF, processInfo base info = .ok info' ∧
      processTail [] rest = .ok (out2, log, hF) ∧ out = info' :: out2 := by
  unfold dedupProcess at h
  simp only [] at h
  cases hpi : processInfo base info with
  | error m =>
    rw [hpi] at h
    simp at h
  | ok info' =>
    rw [hpi] at h
    simp only [] at h
    cases hpt : processTail [] rest with
    | error m =>
      rw [hpt] at h
      simp at h
    | ok w =>
      obtain ⟨out2, log2, hF⟩ := w
      rw [hpt] at h
      simp at h
      exact ⟨info', out2, hF, rfl, by rw [h.2], h.1.symm⟩

theorem mkDefaults_get_other (r : WRecord) (k : String) (hk : ¬ k = "Content-Length") :
    alGet (mkDefaults r).header k = alGet r.header k := by
  unfold mkDefaults
  cases h : alGet r.header "Content-Length" with
  | some v => rfl
  | none =>
    have h2 : ¬ ("Content-Length" : String) = k := fun hh => hk hh.symm
    simp [alGet_alSet_ne _ _ h2]

theorem mkDefaults_payload (r : WRecord) : (mkDefaults r).payload = r.payload := by
  unfold mkDefaults
  cases h : alGet r.header "Content-Length" with
  | some v => rfl
  | none => rfl

theorem mkDefaults_clConsistent (r : WRecord) (hc : clConsistentB r = true) :
    clConsistentB (mkDefaults r) = true := by
  unfold mkDefaults
  cases h : alGet r.header "Content-Length" with
  | some v => exact hc
  | none => simp [clConsistentB, alGet_alSet_self]

theorem clConsistentB_congr (h1 h2 : List (String × String)) (p : String)
    (heq : alGet h1 "Content-Length" = alGet h2 "Content-Length") :
    clConsistentB ⟨h1, p⟩ = clConsistentB ⟨h2, p⟩ := by
  unfold clConsistentB
  rw [heq]

theorem dedup_error_of_bad_record (base : String) (info r : WRecord) (rest : List WRecord)
    (hmem : r ∈ rest) (hbad : ∀ hashes : Hashes, okB (stepRecord hashes r) = false) :
    okB (dedupProcess base (info :: rest)) = false := by
  have htail := processTail_error_of_bad rest r hmem hbad []
  unfold dedupProcess
  simp only []
  cases hpi : processInfo base info with
  | error m => simp [okB]
  | ok info' =>
    simp only []
    cases hpt : processTail [] rest with
    | error m => simp [okB]
    | ok w =>
      rw [hpt] at htail
      simp [okB] at htail


/-! ### Claim theorems -/

/-- Claim C1, counterexample: for a duplicate response whose embedded header
block declares a zero-length inner body, the claim says the output record's
payload is replaced by just the reconstructed header block and
`Content-Length` is updated to the trimmed block's length.  On the concrete
archive `[cInfo, cResp1, cRespZero]` the code instead writes the duplicate
back completely unchanged (line 197 of `pipeline.py` re-wraps the original
`payload_`, not the trimmed `payload`): the output record equals the input
record, its payload differs from the reconstructed block, and its
`Content-Length` is not the trimmed block's length.  (The kind is indeed
kept and no audit entry is emitted, as the claim also says.) -/
theorem c1_degenerate_payload_not_trimmed :
    outRecGet (dedupProcess "base" [cInfo, cResp1, cRespZero]) 2 = some cRespZero ∧
    ¬ cRespZero.payload = embeddedBlock cRespZero.payload ∧
    ¬ outPayloadGet (dedupProcess "base" [cInfo, cResp1, cRespZero]) 2 =
        some (embeddedBlock cRespZero.payload) ∧
    ¬ outHeaderGet (dedupProcess "base" [cInfo, cResp1, cRespZero]) 2 "Content-Length" =
        some (toString (embeddedBlock cRespZero.payload).length) ∧
    logGet (dedupProcess "base" [cInfo, cResp1, cRespZero]) = some [] := by
  refine ⟨?_, ?_, ?_, ?_, ?_⟩ <;> decide

/-- Claim C1, amended: for every response record whose payload digest is
already present in the digest index and whose reconstructed embedded header
block passes the zero-length test, the record is written to the output
completely unchanged — original kind, original payload, original
`Content-Length` — the digest index is untouched, and no audit entry is
emitted. -/
theorem c1_degenerate_passthrough (hashes : Hashes) (r : WRecord) (d k : String)
    (e : Option String × Option String × Option String)
    (ht : alGet r.header "WARC-Type" = some "response")
    (hd : alGet r.header "WARC-Payload-Digest" = some d)
    (hk : digestKey d = some k)
    (he : alGet hashes k = some e)
    (hz : zeroLengthCheck (embeddedBlock r.payload) = true) :
    stepRecord hashes r = .ok (r, hashes, none) :=
  stepRecord_degenerate hashes r d k e ht hd hk he hz

/-- Witness for the amended C1 at a concrete degenerate duplicate. -/
theorem c1_degenerate_passthrough_witness :
    stepRecord cHashes0 cRespZero = .ok (cRespZero, cHashes0, none) :=
  c1_degenerate_passthrough cHashes0 cRespZero "sha1:AAA" "AAA"
    (some "<urn:uuid:0>", some "D0", some "U0") rfl rfl rfl rfl (by decide)

/-- Claim C2, counterexample: the claim says a response record with no
`WARC-Payload-Digest` field is passed through unchanged without failure.
On the concrete archive `[cInfo, cNoDigest]` the whole pass instead aborts:
line 163 calls `.split` on the `None` returned by `header.get`, raising
`AttributeError`. -/
theorem c2_missing_digest_aborts_concrete :
    alGet cNoDigest.header "WARC-Type" = some "response" ∧
    alGet cNoDigest.header "WARC-Payload-Digest" = none ∧
    okB (dedupProcess "base" [cInfo, cNoDigest]) = false := by
  refine ⟨?_, ?_, ?_⟩ <;> decide

/-- Claim C2, amended: for every record of kind response whose header has no
`WARC-Payload-Digest` field anywhere in the archive tail, processing *fails*:
the whole pass aborts with an error (the record is neither written nor
indexed), because `header.get` returns `None` and `None.split` raises. -/
theorem c2_missing_digest_aborts (base : String) (info r : WRecord)
    (rest : List WRecord) (hmem : r ∈ rest)
    (ht : alGet r.header "WARC-Type" = some "response")
    (hd : alGet r.header "WARC-Payload-Digest" = none) :
    okB (dedupProcess base (info :: rest)) = false := by
  have hbad : ∀ hashes : Hashes, okB (stepRecord hashes r) = false := by
    intro hashes
    rw [stepRecord_noDigest hashes r ht hd]
    rfl
  exact dedup_error_of_bad_record base info r rest hmem hbad

/-- Witness for the amended C2 at a concrete digest-less response. -/
theorem c2_missing_digest_aborts_witness :
    okB (dedupProcess "base" [cInfo, cNoDigest]) = false :=
  c2_missing_digest_aborts "base" cInfo cNoDigest [cNoDigest] (by decide) rfl rfl


/-- Claim C3: for a pair of response records carrying the same payload
digest where the second's reconstructed embedded header block is
non-trivial (fails the zero-length test), the whole pass succeeds, the
first record is written unchanged, and the second is rewritten to kind
`revisit`: payload replaced by the reconstructed block, `Content-Length`
set to the block's byte length, `WARC-Refers-To` / `WARC-Refers-To-Date` /
`WARC-Refers-To-Target-URI` set to the first record's record id, date and
target URI, the truncated-for-length marker and the
identical-payload-digest profile added, and `WARC-Block-Digest` dropped;
the audit log holds exactly the one corresponding entry. -/
theorem c3_duplicate_rewrite (base : String) (info r1 r2 : WRecord)
    (d k bdI bd2 oID oDate oURI dID dURL dDate : String)
    (hbdI : alGet info.header "WARC-Block-Digest" = some bdI)
    (h1t : alGet r1.header "WARC-Type" = some "response")
    (h1d : alGet r1.header "WARC-Payload-Digest" = some d)
    (hk : digestKey d = some k)
    (hid1 : alGet r1.header "WARC-Record-ID" = some oID)
    (hdate1 : alGet r1.header "WARC-Date" = some oDate)
    (huri1 : alGet r1.header "WARC-Target-URI" = some oURI)
    (h2t : alGet r2.header "WARC-Type" = some "response")
    (h2d : alGet r2.header "WARC-Payload-Digest" = some d)
    (hz : zeroLengthCheck (embeddedBlock r2.payload) = false)
    (hbd2 : alGet r2.header "WARC-Block-Digest" = some bd2)
    (hid2 : alGet r2.header "WARC-Record-ID" = some dID)
    (huri2 : alGet r2.header "WARC-Target-URI" = some dURL)
    (hdate2 : alGet r2.header "WARC-Date" = some dDate) :
    okB (dedupProcess base [info, r1, r2]) = true ∧
    outRecGet (dedupProcess base [info, r1, r2]) 1 = some r1 ∧
    outHeaderGet (dedupProcess base [info, r1, r2]) 2 "WARC-Type" = some "revisit" ∧
    outPayloadGet (dedupProcess base [info, r1, r2]) 2 = some (embeddedBlock r2.payload) ∧
    outHeaderGet (dedupProcess base [info, r1, r2]) 2 "Content-Length" =
      some (toString (embeddedBlock r2.payload).length) ∧
    outHeaderGet (dedupProcess base [info, r1, r2]) 2 "WARC-Refers-To" = some oID ∧
    outHeaderGet (dedupProcess base [info, r1, r2]) 2 "WARC-Refers-To-Date" = some oDate ∧
    outHeaderGet (dedupProcess base [info, r1, r2]) 2 "WARC-Refers-To-Target-URI" =
      some oURI ∧
    outHeaderGet (dedupProcess base [info, r1, r2]) 2 "WARC-Truncated" = some "length" ∧
    outHeaderGet (dedupProcess base [info, r1, r2]) 2 "WARC-Profile" =
      some "http://netpreserve.org/warc/1.0/revisit/identical-payload-digest" ∧
    outHeaderGet (dedupProcess base [info, r1, r2]) 2 "WARC-Block-Digest" = none ∧
    logGet (dedupProcess base [info, r1, r2]) =
      some [auditLine dID dURL dDate oID oURI oDate] := by
  have hFN : alGet (alSet info.header "WARC-Filename" (base ++ "-deduplicated.warc.gz"))
      "WARC-Block-Digest" = some bdI := by
    rw [alGet_alSet_ne _ _ (by decide)]
    exact hbdI
  have hpi : processInfo base info = .ok (mkDefaults
      ⟨alErase (alSet info.header "WARC-Filename" (base ++ "-deduplicated.warc.gz"))
        "WARC-Block-Digest", info.payload⟩) := by
    unfold processInfo
    rw [alDel_of_some _ _ _ hFN]
  have hidt : idTriple r1 = (some oID, some oDate, some oURI) := by
    unfold idTriple
    rw [hid1, hdate1, huri1]
  have hstep1 : stepRecord [] r1 = .ok (r1, alSet [] k (idTriple r1), none) :=
    stepRecord_first [] r1 d k h1t h1d hk rfl
  have hlook : alGet (alSet ([] : Hashes) k (idTriple r1)) k = some (idTriple r1) :=
    alGet_alSet_self _ _ _
  have hstep2 := stepRecord_revisit (alSet [] k (idTriple r1)) r2 d k bd2 dID dURL dDate
    (idTriple r1) h2t h2d hk hlook hz hbd2 hid2 huri2 hdate2
  have hpt : processTail [] [r1, r2] = .ok
      ([r1, ⟨alErase (setRevisitFields r2.header (embeddedBlock r2.payload) (idTriple r1))
          "WARC-Block-Digest", embeddedBlock r2.payload⟩],
       [auditLine dID dURL dDate (pyStr (idTriple r1).1) (pyStr (idTriple r1).2.2)
          (pyStr (idTriple r1).2.1)],
       alSet [] k (idTriple r1)) := by
    simp [processTail, hstep1, hstep2]
  have hres : dedupProcess base [info, r1, r2] = .ok
      (mkDefaults ⟨alErase (alSet info.header "WARC-Filename"
          (base ++ "-deduplicated.warc.gz")) "WARC-Block-Digest", info.payload⟩ ::
        [r1, ⟨alErase (setRevisitFields r2.header (embeddedBlock r2.payload) (idTriple r1))
          "WARC-Block-Digest", embeddedBlock r2.payload⟩],
       [auditLine dID dURL dDate (pyStr (idTriple r1).1) (pyStr (idTriple r1).2.2)
          (pyStr (idTriple r1).2.1)]) := by
    simp [dedupProcess, hpi, hpt]
  have hg := revisit_header_gets r2.header (embeddedBlock r2.payload)
    (some oID, some oDate, some oURI)
  rw [hidt] at hres
  refine ⟨?_, ?_, ?_, ?_, ?_, ?_, ?_, ?_, ?_, ?_, ?_, ?_⟩ <;>
    simp [hres, outRecGet, outHeaderGet, outPayloadGet, logGet, okB, hidt, pyStr,
      hg.1, hg.2.1, hg.2.2.1, hg.2.2.2.1, hg.2.2.2.2.1, hg.2.2.2.2.2.1,
      hg.2.2.2.2.2.2.1, hg.2.2.2.2.2.2.2.1]

/-- Witness for C3 at the concrete archive `[cInfo, cResp1, cResp2]`. -/
theorem c3_duplicate_rewrite_witness :
    okB (dedupProcess "base" [cInfo, cResp1, cResp2]) = true ∧
    outRecGet (dedupProcess "base" [cInfo, cResp1, cResp2]) 1 = some cResp1 ∧
    outHeaderGet (dedupProcess "base" [cInfo, cResp1, cResp2]) 2 "WARC-Type" =
      some "revisit" ∧
    outPayloadGet (dedupProcess "base" [cInfo, cResp1, cResp2]) 2 =
      some (embeddedBlock cResp2.payload) ∧
    outHeaderGet (dedupProcess "base" [cInfo, cResp1, cResp2]) 2 "Content-Length" =
      some (toString (embeddedBlock cResp2.payload).length) ∧
    outHeaderGet (dedupProcess "base" [cInfo, cResp1, cResp2]) 2 "WARC-Refers-To" =
      some "<urn:uuid:1>" ∧
    outHeaderGet (dedupProcess "base" [cInfo, cResp1, cResp2]) 2 "WARC-Refers-To-Date" =
      some "D1" ∧
    outHeaderGet (dedupProcess "base" [cInfo, cResp1, cResp2]) 2
      "WARC-Refers-To-Target-URI" = some "http://a/1" ∧
    outHeaderGet (dedupProcess "base" [cInfo, cResp1, cResp2]) 2 "WARC-Truncated" =
      some "length" ∧
    outHeaderGet (dedupProcess "base" [cInfo, cResp1, cResp2]) 2 "WARC-Profile" =
      some "http://netpreserve.org/warc/1.0/revisit/identical-payload-digest" ∧
    outHeaderGet (dedupProcess "base" [cInfo, cResp1, cResp2]) 2 "WARC-Block-Digest" =
      none ∧
    logGet (dedupProcess "base" [cInfo, cResp1, cResp2]) =
      some [auditLine "<urn:uuid:2>" "http://a/2" "D2" "<urn:uuid:1>" "http://a/1" "D1"] :=
  c3_duplicate_rewrite "base" cInfo cResp1 cResp2 "sha1:AAA" "AAA" "sha1:IBD" "sha1:B2"
    "<urn:uuid:1>" "D1" "http://a/1" "<urn:uuid:2>" "http://a/2" "D2"
    rfl rfl rfl rfl rfl rfl rfl rfl rfl (by decide) rfl rfl rfl rfl

/-- Claim C4, counterexample: the claim says the zero-length indicator is
matched case-insensitively, so a block declaring `CONTENT-LENGTH: 0` should
take the degenerate branch.  On the concrete archive
`[cInfo, cResp1, cRespUpper]` the upper-case spelling matches neither of
the two literal substrings tested at lines 172-173, so the duplicate is
rewritten to `revisit` instead. -/
theorem c4_uppercase_not_degenerate :
    pyContains (embeddedBlock cRespUpper.payload) "CONTENT-LENGTH: 0" = true ∧
    zeroLengthCheck (embeddedBlock cRespUpper.payload) = false ∧
    outHeaderGet (dedupProcess "base" [cInfo, cResp1, cRespUpper]) 2 "WARC-Type" =
      some "revisit" := by
  refine ⟨?_, ?_, ?_⟩ <;> decide

/-- Claim C4, amended: the test selecting the degenerate branch for a
duplicate response is `zeroLengthCheck` applied to the reconstructed
embedded header block — containment of the exact substring
`"Content-Length: 0"` or `"content-length: 0"` (only these two spellings,
not general case-insensitive matching).  When the test holds the record
passes through unchanged; when it fails the record is rewritten to kind
`revisit`. -/
theorem c4_zero_length_test (hashes : Hashes) (r : WRecord)
    (d k bd dID dURL dDate : String)
    (e : Option String × Option String × Option String)
    (ht : alGet r.header "WARC-Type" = some "response")
    (hd : alGet r.header "WARC-Payload-Digest" = some d)
    (hk : digestKey d = some k)
    (he : alGet hashes k = some e)
    (hbd : alGet r.header "WARC-Block-Digest" = some bd)
    (hid : alGet r.header "WARC-Record-ID" = some dID)
    (huri : alGet r.header "WARC-Target-URI" = some dURL)
    (hdate : alGet r.header "WARC-Date" = some dDate) :
    (zeroLengthCheck (embeddedBlock r.payload) = true →
      stepRecord hashes r = .ok (r, hashes, none)) ∧
    (zeroLengthCheck (embeddedBlock r.payload) = false →
      stepHeaderGet (stepRecord hashes r) "WARC-Type" = some "revisit") := by
  constructor
  · intro hz
    exact stepRecord_degenerate hashes r d k e ht hd hk he hz
  · intro hz
    rw [stepRecord_revisit hashes r d k bd dID dURL dDate e ht hd hk he hz hbd hid
      huri hdate]
    have hg := revisit_header_gets r.header (embeddedBlock r.payload) e
    simpa [stepHeaderGet] using hg.1

/-- Witness for the amended C4 at two concrete duplicates: the canonical
spelling takes the degenerate branch, the upper-case spelling is rewritten
to revisit. -/
theorem c4_zero_length_test_witness :
    stepRecord cHashes0 cRespZero = .ok (cRespZero, cHashes0, none) ∧
    stepHeaderGet (stepRecord cHashes0 cRespUpper) "WARC-Type" = some "revisit" :=
  ⟨(c4_zero_length_test cHashes0 cRespZero "sha1:AAA" "AAA" "sha1:BZ" "<urn:uuid:z>"
      "http://a/z" "DZ" (some "<urn:uuid:0>", some "D0", some "U0")
      rfl rfl rfl rfl rfl rfl rfl rfl).1 (by decide),
   (c4_zero_length_test cHashes0 cRespUpper "sha1:AAA" "AAA" "sha1:BU" "<urn:uuid:u>"
      "http://a/u" "DU" (some "<urn:uuid:0>", some "D0", some "U0")
      rfl rfl rfl rfl rfl rfl rfl rfl).2 (by decide)⟩


/-- Claim C5: the digest index is first-occurrence-wins — any entry present
in the index is still present, unchanged, after processing any further
records, whatever header metadata those records carry (entries are only
ever added under keys that miss the index, never overwritten or removed). -/
theorem c5_first_occurrence_wins (hashes : Hashes) (rs : List WRecord) (k : String)
    (e : Option String × Option String × Option String) (out : List WRecord)
    (log : List String) (hF : Hashes)
    (hk : alGet hashes k = some e)
    (hok : processTail hashes rs = .ok (out, log, hF)) :
    alGet hF k = some e :=
  processTail_preserves_hash rs hashes k e out log hF hk hok

/-- Witness for C5: the entry for digest `AAA` survives the processing of a
later record carrying the same digest with different header metadata. -/
theorem c5_first_occurrence_wins_witness :
    alGet cHashes0 "AAA" = some (some "<urn:uuid:0>", some "D0", some "U0") :=
  c5_first_occurrence_wins cHashes0 [cRespZero] "AAA"
    (some "<urn:uuid:0>", some "D0", some "U0") [cRespZero] [] cHashes0 rfl rfl

/-- Claim C6: if every input record's `Content-Length` header (when present)
equals its payload's byte length, then the same holds of every record the
pass writes to the output. -/
theorem c6_content_length_consistency (base : String) (records out : List WRecord)
    (log : List String)
    (hin : ∀ r ∈ records, clConsistentB r = true)
    (hok : dedupProcess base records = .ok (out, log)) :
    ∀ r2 ∈ out, clConsistentB r2 = true := by
  cases records with
  | nil => simp [dedupProcess] at hok
  | cons info rest =>
    obtain ⟨info', out2, hF, hpi, hpt, hout⟩ := dedupProcess_ok_inv base info rest out log hok
    subst hout
    intro r2 hr2
    rcases List.mem_cons.mp hr2 with hm | hm
    · subst hm
      rw [processInfo_ok_inv base info r2 hpi]
      apply mkDefaults_clConsistent
      have heq : alGet (alErase (alSet info.header "WARC-Filename"
          (base ++ "-deduplicated.warc.gz")) "WARC-Block-Digest") "Content-Length" =
          alGet info.header "Content-Length" := by
        rw [alGet_alErase_ne _ (by decide), alGet_alSet_ne _ _ (by decide)]
      rw [clConsistentB_congr _ info.header info.payload heq]
      exact hin info (List.mem_cons_self _ _)
    · exact processTail_clConsistent rest [] out2 log hF
        (fun rr hrr => hin rr (List.mem_cons_of_mem _ hrr)) hpt r2 hm

/-- Witness for C6: the rewritten revisit record of the concrete archive has
a consistent `Content-Length`. -/
theorem c6_content_length_consistency_witness : clConsistentB cRev2 = true :=
  c6_content_length_consistency "base" [cInfo, cResp1, cResp2] cOut3 [cEntry2]
    (by decide) rfl cRev2 (by decide)

/-- Claim C7: the audit log accumulated by a successful pass is exactly the
in-order sequence of entries contributed by the record pairs that were
rewritten into revisit kind (`auditSpec`): one entry per rewrite, none for
degenerate duplicates or pass-throughs, each entry formatted from the
duplicate's record id / target URI / date and its `WARC-Refers-To*` fields
(the original's record id / target URI / date). -/
theorem c7_audit_completeness (base : String) (info : WRecord) (rest out : List WRecord)
    (log : List String)
    (hok : dedupProcess base (info :: rest) = .ok (out, log)) :
    log = (rest.zip out.tail).filterMap auditSpec := by
  obtain ⟨info', out2, hF, hpi, hpt, hout⟩ := dedupProcess_ok_inv base info rest out log hok
  subst hout
  simp only [List.tail_cons]
  have h := processTail_audit rest [] out2 log hF hpt
  simpa [auditSpec] using h

/-- Witness for C7 at the concrete archive with two duplicates. -/
theorem c7_audit_completeness_witness :
    cLog2 = ([cResp1, cResp2, cResp3].zip ([cInfoOut, cResp1, cRev2, cRev3].tail)).filterMap
      auditSpec :=
  c7_audit_completeness "base" cInfo [cResp1, cResp2, cResp3]
    [cInfoOut, cResp1, cRev2, cRev3] cLog2 rfl


/-- Claim C8, counterexample: the claim says the flushed audit text has one
entry per line with no blank lines between entries.  On the concrete
archive with two duplicates the accumulated log is `cLog2`, and the text
`'\r\n'.join(dedup_log)` splits into exactly three lines of which the
middle one is empty — a blank line between the two entries, because every
entry already ends with `\r\n` and the join inserts another one. -/
theorem c8_blank_line_concrete :
    logGet (dedupProcess "base" [cInfo, cResp1, cResp2, cResp3]) = some cLog2 ∧
    (pySplitlines (flushLog cLog2).data).length = 3 ∧
    (pySplitlines (flushLog cLog2).data)[1]? = some [] := by
  refine ⟨?_, ?_, ?_⟩ <;> decide

/-- Claim C8, amended: the flush writes the accumulated entries joined by a
single line separator, but each entry is itself terminated by a line
separator, so between any two consecutive entries the flushed text contains
a double separator — i.e. a blank line separates consecutive entries. -/
theorem c8_entries_double_separated (a b c d e f a2 b2 c2 d2 e2 f2 : String) :
    pyContains (flushLog [auditLine a b c d e f, auditLine a2 b2 c2 d2 e2 f2])
      "\r\n\r\n" = true := by
  have h1 : flushLog [auditLine a b c d e f, auditLine a2 b2 c2 d2 e2 f2] =
      auditLine a b c d e f ++ "\r\n" ++ auditLine a2 b2 c2 d2 e2 f2 := rfl
  rw [h1]
  unfold pyContains
  have hc2 : ("\r\n" : String).data = ['\r', '\n'] := rfl
  have hc4 : ("\r\n\r\n" : String).data = ['\r', '\n', '\r', '\n'] := rfl
  have hdata : (auditLine a b c d e f ++ "\r\n" ++ auditLine a2 b2 c2 d2 e2 f2).data =
      ("WARC-Record-ID:" ++ a ++ "; WARC-Target-URI:" ++ b ++ "; WARC-Date:" ++ c ++
       " duplicate of WARC-Record-ID:" ++ d ++ "; WARC-Target-URI:" ++ e ++
       "; WARC-Date:" ++ f).data ++
      (("\r\n\r\n" : String).data ++ (auditLine a2 b2 c2 d2 e2 f2).data) := by
    simp [auditLine, strData_append, hc2, hc4, List.append_assoc]
  rw [hdata]
  apply containsL_append_left
  exact containsL_self_append _ _

/-- Witness for the amended C8 at two concrete audit entries. -/
theorem c8_entries_double_separated_witness :
    pyContains (flushLog [auditLine "<urn:uuid:2>" "http://a/2" "D2" "<urn:uuid:1>"
        "http://a/1" "D1",
      auditLine "<urn:uuid:3>" "http://a/3" "D3" "<urn:uuid:1>" "http://a/1" "D1"])
      "\r\n\r\n" = true :=
  c8_entries_double_separated "<urn:uuid:2>" "http://a/2" "D2" "<urn:uuid:1>"
    "http://a/1" "D1" "<urn:uuid:3>" "http://a/3" "D3" "<urn:uuid:1>" "http://a/1" "D1"

/-- Claim C9: whenever the pass succeeds, the first (info) record is written
with `WARC-Filename` updated to the output archive's name, its
`WARC-Block-Digest` removed, and its payload unchanged. -/
theorem c9_info_record_rewrite (base : String) (info : WRecord) (rest : List WRecord)
    (out : List WRecord) (log : List String)
    (hok : dedupProcess base (info :: rest) = .ok (out, log)) :
    outHeaderGet (dedupProcess base (info :: rest)) 0 "WARC-Filename" =
      some (base ++ "-deduplicated.warc.gz") ∧
    outHeaderGet (dedupProcess base (info :: rest)) 0 "WARC-Block-Digest" = none ∧
    outPayloadGet (dedupProcess base (info :: rest)) 0 = some info.payload := by
  obtain ⟨info', out2, hF, hpi, hpt, hout⟩ := dedupProcess_ok_inv base info rest out log hok
  have hinfo := processInfo_ok_inv base info info' hpi
  rw [hok, hout]
  refine ⟨?_, ?_, ?_⟩
  · simp only [outHeaderGet, outRecGet, List.getElem?_cons_zero, hinfo]
    rw [mkDefaults_get_other _ _ (by decide)]
    simp only []
    rw [alGet_alErase_ne _ (by decide), alGet_alSet_self]
  · simp only [outHeaderGet, outRecGet, List.getElem?_cons_zero, hinfo]
    rw [mkDefaults_get_other _ _ (by decide)]
    simp only []
    rw [alGet_alErase_self]
  · simp only [outPayloadGet, outRecGet, List.getElem?_cons_zero, hinfo]
    rw [mkDefaults_payload]

/-- Witness for C9 at a one-record concrete archive. -/
theorem c9_info_record_rewrite_witness :
    outHeaderGet (dedupProcess "base" [cInfo]) 0 "WARC-Filename" =
      some ("base" ++ "-deduplicated.warc.gz") ∧
    outHeaderGet (dedupProcess "base" [cInfo]) 0 "WARC-Block-Digest" = none ∧
    outPayloadGet (dedupProcess "base" [cInfo]) 0 = some cInfo.payload :=
  c9_info_record_rewrite "base" cInfo [] [cInfoOut] [] rfl

/-- Claim C10: digest-key extraction assumes the `algorithm:value` format —
when the payload-digest value contains a colon, the portion after the first
colon is the index key (`digestKey`); when it contains no colon, the
indexing `[1]` of the one-element split result fails, and the whole pass
over any archive containing such a response record aborts with an error
(nothing is written for it). -/
theorem c10_digest_key_extraction :
    (∀ a b : String, ':' ∉ a.data → digestKey (a ++ ":" ++ b) = some b) ∧
    (∀ (base : String) (info r : WRecord) (rest : List WRecord) (v : String),
      r ∈ rest → alGet r.header "WARC-Type" = some "response" →
      alGet r.header "WARC-Payload-Digest" = some v → ':' ∉ v.data →
      okB (dedupProcess base (info :: rest)) = false) := by
  constructor
  · intro a b ha
    unfold digestKey pySplitColon1
    have hdata : (a ++ ":" ++ b).data = a.data ++ ':' :: b.data := by
      rw [strData_append, strData_append]
      simp
    rw [hdata, splitColonGo_with_colon a.data b.data [] ha]
  · intro base info r rest v hmem ht hd hv
    have hbad : ∀ hashes : Hashes, okB (stepRecord hashes r) = false := by
      intro hashes
      rw [stepRecord_noColon hashes r v ht hd (digestKey_no_colon v hv)]
      rfl
    exact dedup_error_of_bad_record base info r rest hmem hbad

/-- Witness for C10: a colon digest value yields the part after the colon,
and a concrete archive with a colon-free digest value makes the pass fail. -/
theorem c10_digest_key_extraction_witness :
    digestKey ("sha1" ++ ":" ++ "3I42H3") = some "3I42H3" ∧
    okB (dedupProcess "base" [cInfo, cNoColon]) = false :=
  ⟨c10_digest_key_extraction.1 "sha1" "3I42H3" (by decide),
   c10_digest_key_extraction.2 "base" cInfo cNoColon [cNoColon] "NOCOLON"
     (by decide) rfl rfl (by decide)⟩

end FlickrDedup
